/-
Verification of the athlete-resolution pipeline and rarity scorer of the
player-hunt repository.

The Python sources are shallowly embedded:
  * `firebase_store.calculate_athlete_points`  → `calculate_athlete_points`
  * `athlete_lookup._search_local_exact`       → `searchLocalExact` (+ `exactRow`)
  * `athlete_lookup._search_local_partial`     → `searchLocalSuffix` (+ `suffixRow`)
  * `athlete_lookup._do_search` (candidate disambiguation) → `doSearchNet`, `selectCandidate`
  * `athlete_lookup._lookup_via_api`           → `lookupViaApi`
  * `athlete_lookup._extract_sport` / `_extract_country` → `extractSport` / `extractCountry`
  * `athlete_lookup._normalize_sport` / `_normalize_country` → `normalizeSport` / `normalizeCountry`
  * `athlete_lookup._occupation_to_sport`      → `occupationToSport`
  * `athlete_lookup._get_label`                → `getLabel` (explicit cache state)
  * `athlete_lookup.lookup_athlete`            → `lookupAthlete`

Machine-level conventions of the embedding:
  * Python `str` is Lean `String`; the inputs handled by the program are ASCII,
    so `str.lower` / `str.upper` / `str.title` are embedded by the ASCII case
    maps below (`strLower`, `pyTitle`).
  * Python `None`-able values are `Option`; `dict.get` chains are flattened to
    `Option` fields.
  * Network and database effects are passed in as explicit arguments: either as
    oracle functions (`String → Option _`) or, where the failure modes
    themselves matter, as explicit response values (transport error / status
    code / parsed body).  A response body is one of: unparseable JSON (the
    resulting `JSONDecodeError` is a `RequestException` subclass and is
    caught), valid JSON of the wrong shape (the subsequent `.get` chain raises
    an *uncaught* `AttributeError`), or the expected shape.  A network stage
    therefore returns `Except Unit (Option _)`: `Except.ok` is a normal Python
    return and `Except.error ()` is an exception escaping the function.
  * The SQL `LIKE` operator is embedded with its SQLite semantics
    (`%`/`_` wildcards, ASCII case-insensitive).
  * Percentages computed with Python float division are embedded exactly over
    `ℚ` (the quantities involved are ratios of small integers).
-/
import Mathlib

/-! ### ASCII string helpers (Python `lower`, `strip`, `title`, `in`, `endswith`, `replace`) -/

/-- ASCII lower-casing of one character (Python `str.lower` on ASCII input). -/
def asciiLower (c : Char) : Char :=
  if 'A' ≤ c ∧ c ≤ 'Z' then Char.ofNat (c.toNat + 32) else c

/-- ASCII upper-casing of one character (Python `str.upper` on ASCII input). -/
def asciiUpper (c : Char) : Char :=
  if 'a' ≤ c ∧ c ≤ 'z' then Char.ofNat (c.toNat - 32) else c

/-- Python `str.lower` (ASCII). -/
def strLower (s : String) : String :=
  ⟨s.data.map asciiLower⟩

/-- Python `str.strip`: drop leading and trailing whitespace. -/
def pyStrip (s : String) : String :=
  ⟨((s.data.dropWhile Char.isWhitespace).reverse.dropWhile Char.isWhitespace).reverse⟩

/-- Auxiliary for `pyTitle`: the flag records whether the previous character
was alphabetic (Python title-cases the first letter of every letter run). -/
def pyTitleAux : Bool → List Char → List Char
  | _, [] => []
  | prevAlpha, c :: rest =>
    (if prevAlpha then asciiLower c else asciiUpper c) :: pyTitleAux c.isAlpha rest

/-- Python `str.title` (ASCII). -/
def pyTitle (s : String) : String :=
  ⟨pyTitleAux false s.data⟩

/-- Predicate `isPrefixL p l` : is `p` a prefix of `l`. -/
def isPrefixL : List Char → List Char → Bool
  | [], _ => true
  | _ :: _, [] => false
  | p :: ps, c :: cs => p == c && isPrefixL ps cs

/-- Predicate `containsSubL pat l` : does `pat` occur as a contiguous sublist of `l`. -/
def containsSubL (pat : List Char) : List Char → Bool
  | [] => isPrefixL pat []
  | c :: rest => isPrefixL pat (c :: rest) || containsSubL pat rest

/-- Python `pat in s` (substring containment). -/
def containsSub (s pat : String) : Bool :=
  containsSubL pat.data s.data

/-- Test that `s` ends with `suffix` (the reading of `LIKE '% x'` asserted by
the spec — literal and case-sensitive; `likeMatch` below is the actual SQLite
semantics). -/
def endsWithStr (s suffix : String) : Bool :=
  isPrefixL suffix.data.reverse s.data.reverse

/-- SQLite `LIKE` matching (pattern against text), with fuel for structural
recursion: `%` matches any sequence of characters, `_` matches exactly one,
any other character matches ASCII-case-insensitively.  Every recursive call
shortens `pattern ++ text`, so fuel `|pattern| + |text| + 1` never runs
out. -/
def likeMatchAux : Nat → List Char → List Char → Bool
  | 0, _, _ => false
  | _ + 1, [], t => t.isEmpty
  | n + 1, p :: ps, t =>
    if p = '%' then
      likeMatchAux n ps t ||
        (match t with
         | [] => false
         | _ :: ts => likeMatchAux n (p :: ps) ts)
    else
      match t with
      | [] => false
      | c :: ts =>
        (if p = '_' then true else asciiLower p == asciiLower c) &&
          likeMatchAux n ps ts

/-- SQLite `text LIKE pattern` (default, case-insensitive for ASCII). -/
def likeMatch (pattern text : String) : Bool :=
  likeMatchAux (pattern.data.length + text.data.length + 1) pattern.data text.data

/-- Auxiliary for `removeAll`, with fuel bounding the recursion depth. -/
def removeAllAux : Nat → List Char → List Char → List Char
  | 0, _, _ => []
  | _ + 1, [], _ => []
  | n + 1, c :: rest, pat =>
    if isPrefixL pat (c :: rest) then
      removeAllAux n (List.drop pat.length (c :: rest)) pat
    else
      c :: removeAllAux n rest pat

/-- Python `s.replace(pat, "")`: delete every (left-to-right, non-overlapping)
occurrence of `pat` in `s`. -/
def removeAll (s pat : String) : String :=
  ⟨removeAllAux s.data.length s.data pat.data⟩

/-! ### Rarity scorer (`firebase_store.calculate_athlete_points`) -/

/-- One entry of a room collection, as the scorer reads it: the Python code
accesses `a.get("sport")` and `a.get("country")`, both of which may be absent
(`None`). -/
structure CollEntry where
  sport : Option String
  country : Option String
deriving DecidableEq

/-- Embedding of `firebase_store.calculate_athlete_points`.  Python float
division `count / total * 100` is embedded exactly over `ℚ`.  The Python
guard `if country:` is false both for `None` and for the empty string, which
is why the `c = ""` test appears below. -/
def calculate_athlete_points (sport : String) (country : Option String)
    (athletes : List CollEntry) : Nat × Nat × Nat :=
  -- total = len(athletes) or 1
  let total : Nat := if athletes.length = 0 then 1 else athletes.length
  let sport_count : Nat := (athletes.filter (fun a => a.sport == some sport)).length
  let sport_pct : ℚ := (sport_count : ℚ) / (total : ℚ) * 100
  let sport_bonus : Nat :=
    if sport_pct ≤ 2 then 4
    else if sport_pct ≤ 5 then 3
    else if sport_pct ≤ 15 then 2
    else if sport_pct ≤ 30 then 1
    else 0
  let country_bonus : Nat :=
    match country with
    | none => 0
    | some c =>
      if c = "" then 0  -- Python: `if country:` is false for ""
      else
        let country_count : Nat := (athletes.filter (fun a => a.country == some c)).length
        let country_pct : ℚ := (country_count : ℚ) / (total : ℚ) * 100
        if country_pct ≤ 2 then 2
        else if country_pct ≤ 5 then 1
        else 0
  (1 + sport_bonus + country_bonus, sport_bonus, country_bonus)

/-- C1's description of the scorer, transcribed literally from the claim:
`total = max(len(collection), 1)`, inclusive ascending percentage thresholds
(stated here by cross-multiplication, which is the exact meaning of
`count / total * 100 ≤ k`), and a country bonus computed from the percentage
whenever `country` is present — with no special case for an empty string. -/
def calcPointsClaim (sport : String) (country : Option String)
    (athletes : List CollEntry) : Nat × Nat × Nat :=
  let total : Nat := max athletes.length 1
  let sport_count : Nat := (athletes.filter (fun a => a.sport == some sport)).length
  let sport_bonus : Nat :=
    if 100 * sport_count ≤ 2 * total then 4
    else if 100 * sport_count ≤ 5 * total then 3
    else if 100 * sport_count ≤ 15 * total then 2
    else if 100 * sport_count ≤ 30 * total then 1
    else 0
  let country_bonus : Nat :=
    match country with
    | none => 0
    | some c =>
      let country_count : Nat := (athletes.filter (fun a => a.country == some c)).length
      if 100 * country_count ≤ 2 * total then 2
      else if 100 * country_count ≤ 5 * total then 1
      else 0
  (1 + sport_bonus + country_bonus, sport_bonus, country_bonus)

/-- C1 amended: identical to `calcPointsClaim` except that a present-but-empty
country string also yields a zero country bonus (the code's `if country:`
truthiness test). -/
def calcPointsAmended (sport : String) (country : Option String)
    (athletes : List CollEntry) : Nat × Nat × Nat :=
  let total : Nat := max athletes.length 1
  let sport_count : Nat := (athletes.filter (fun a => a.sport == some sport)).length
  let sport_bonus : Nat :=
    if 100 * sport_count ≤ 2 * total then 4
    else if 100 * sport_count ≤ 5 * total then 3
    else if 100 * sport_count ≤ 15 * total then 2
    else if 100 * sport_count ≤ 30 * total then 1
    else 0
  let country_bonus : Nat :=
    match country with
    | none => 0
    | some c =>
      if c = "" then 0
      else
        let country_count : Nat := (athletes.filter (fun a => a.country == some c)).length
        if 100 * country_count ≤ 2 * total then 2
        else if 100 * country_count ≤ 5 * total then 1
        else 0
  (1 + sport_bonus + country_bonus, sport_bonus, country_bonus)

/-! ### Normalizer (`_normalize_sport`, `_normalize_country`, `_occupation_to_sport`) -/

/-- The `normalizations` table of `athlete_lookup._normalize_sport`, in source
order (Python dicts preserve insertion order; keys are unique). -/
def normalizations : List (String × String) := [
  ("association football", "Football"), ("football", "Football"),
  ("soccer", "Football"), ("basketball", "Basketball"), ("tennis", "Tennis"),
  ("cricket", "Cricket"), ("golf", "Golf"), ("baseball", "Baseball"),
  ("ice hockey", "Hockey"), ("swimming", "Swimming"),
  ("athletics", "Athletics"), ("track and field", "Athletics"),
  ("boxing", "Boxing"), ("mixed martial arts", "MMA"),
  ("rugby union", "Rugby"), ("rugby league", "Rugby"),
  ("cycling", "Cycling"), ("artistic gymnastics", "Gymnastics"),
  ("gymnastics", "Gymnastics"), ("volleyball", "Volleyball"),
  ("skateboarding", "Skateboarding"), ("surfing", "Surfing"),
  ("snowboarding", "Snowboarding"), ("chess", "Chess"),
  ("formula one", "Formula 1"), ("formula one racing", "Formula 1"),
  ("kart racing", "Motorsport"), ("auto racing", "Motorsport"),
  ("motorcycle racing", "Motorsport"), ("rallying", "Motorsport"),
  ("alpine skiing", "Skiing"), ("figure skating", "Figure Skating"),
  ("badminton", "Badminton"), ("table tennis", "Table Tennis")]

/-- Embedding of `athlete_lookup._normalize_sport`: exact lookup of the
lower-cased name in the synonym table, title-case fallback. -/
def normalizeSport (sport : String) : String :=
  match normalizations.find? (fun p => p.1 == strLower sport) with
  | some p => p.2
  | none => pyTitle sport

/-- The table of `athlete_lookup._normalize_country` (case-sensitive keys). -/
def countryNormalizations : List (String × String) := [
  ("United States of America", "USA"), ("United States", "USA"),
  ("United Kingdom", "UK"), ("Kingdom of the Netherlands", "Netherlands"),
  ("People's Republic of China", "China"), ("Republic of Korea", "South Korea"),
  ("Democratic People's Republic of Korea", "North Korea"),
  ("Russian Federation", "Russia"), ("Czech Republic", "Czechia")]

/-- Embedding of `athlete_lookup._normalize_country`: exact, case-sensitive
alias lookup with pass-through on miss. -/
def normalizeCountry (country : String) : String :=
  match countryNormalizations.find? (fun p => p.1 == country) with
  | some p => p.2
  | none => country

/-- The `mappings` table of `athlete_lookup._occupation_to_sport`, in source
order (iteration order of the Python dict). -/
def occupationMappings : List (String × String) := [
  ("footballer", "Football"), ("association football player", "Football"),
  ("soccer player", "Football"), ("basketball player", "Basketball"),
  ("tennis player", "Tennis"), ("cricketer", "Cricket"), ("golfer", "Golf"),
  ("baseball player", "Baseball"), ("ice hockey player", "Hockey"),
  ("field hockey player", "Hockey"), ("swimmer", "Swimming"),
  ("sprinter", "Athletics"), ("marathon runner", "Athletics"),
  ("long-distance runner", "Athletics"), ("track and field athlete", "Athletics"),
  ("boxer", "Boxing"), ("mixed martial artist", "MMA"),
  ("rugby player", "Rugby"), ("rugby union player", "Rugby"),
  ("cyclist", "Cycling"), ("racing driver", "Motorsport"),
  ("Formula One driver", "Formula 1"), ("gymnast", "Gymnastics"),
  ("volleyball player", "Volleyball"), ("wrestler", "Wrestling"),
  ("alpine skier", "Skiing"), ("figure skater", "Skating"),
  ("skateboarder", "Skateboarding"), ("surfer", "Surfing"),
  ("snowboarder", "Snowboarding"), ("badminton player", "Badminton"),
  ("table tennis player", "Table Tennis"), ("fencer", "Fencing"),
  ("archer", "Archery"), ("weightlifter", "Weightlifting"),
  ("diver", "Diving"), ("rower", "Rowing"), ("judoka", "Judo"),
  ("chess player", "Chess"), ("esports player", "Esports"),
  ("triathlete", "Triathlon")]

/-- The `for key, sport in mappings.items(): if key.lower() in occupation_lower:
return sport` loop of `_occupation_to_sport`, as a recursion over the table. -/
def occLoop : List (String × String) → String → Option String
  | [], _ => none
  | (k, v) :: rest, occL =>
    if containsSub occL (strLower k) then some v else occLoop rest occL

/-- Embedding of `athlete_lookup._occupation_to_sport`: ordered substring
lookup in the table; on miss, if the lower-cased label contains `"player"` or
`"athlete"`, return `occupation.replace(" player", "").title()` (note: the
replacement deletes only literal `" player"` from the *original* label — the
word `"athlete"` is never removed); otherwise `None`. -/
def occupationToSport (occupation : String) : Option String :=
  let occL := strLower occupation
  match occLoop occupationMappings occL with
  | some s => some s
  | none =>
    if containsSub occL "player" || containsSub occL "athlete" then
      some (pyTitle (removeAll occupation " player"))
    else none

/-- C4's amended description of `_occupation_to_sport`: the sport of the first
table entry (in table order) whose lower-cased key is a substring of the
lower-cased label; else, if the lower-cased label contains `"player"` or
`"athlete"`, the title-casing of the label with every literal `" player"`
occurrence removed (so the word `"athlete"`, or a capitalised `" Player"`, is
kept); else absent. -/
def occupationToSportSpec (occupation : String) : Option String :=
  let occL := strLower occupation
  match occupationMappings.find? (fun p => containsSub occL (strLower p.1)) with
  | some p => some p.2
  | none =>
    if containsSub occL "player" || containsSub occL "athlete" then
      some (pyTitle (removeAll occupation " player"))
    else none

/-! ### External search disambiguation (`athlete_lookup._do_search`) -/

/-- An external search hit, as `_do_search` reads it from the JSON payload:
`id`, `label` and `description` (a missing description is embedded as `""`,
matching `result.get("description", "")`). -/
structure Candidate where
  id : String
  label : String
  description : String
deriving DecidableEq

/-- The `athlete_keywords` list of `_do_search`. -/
def athleteKeywords : List String :=
  ["player", "footballer", "basketball player", "tennis player",
   "athlete", "swimmer", "boxer", "golfer", "cyclist", "skier",
   "runner", "olympic", "champion", "racing driver", "gymnast",
   "volleyball player", "cricketer", "baseball player", "judoka",
   "chess player", "wrestler", "skateboarder", "surfer"]

/-- The `skip_keywords` list of `_do_search`. -/
def skipKeywords : List String :=
  ["rivalry", "match", "tournament", "championship", "game",
   "season", "team", "club", "stadium", "award", "record",
   "film", "song", "album", "book", "series", "episode"]

/-- The nationality adjectives of `_do_search`'s second pass. -/
def nationalityKeywords : List String :=
  ["american", "british", "french", "german", "spanish", "italian",
   "brazilian", "argentine", "japanese", "chinese", "russian",
   "australian", "canadian", "swiss", "dutch", "portuguese"]

/-- Python `description = result.get("description", "").lower()`. -/
def descLower (c : Candidate) : String := strLower c.description

/-- Python `any(skip in description for skip in skip_keywords)`. -/
def isSkipped (c : Candidate) : Bool :=
  skipKeywords.any (fun k => containsSub (descLower c) k)

/-- Python `any(kw in description for kw in athlete_keywords)`. -/
def hasAthleteKw (c : Candidate) : Bool :=
  athleteKeywords.any (fun k => containsSub (descLower c) k)

/-- Python `"born" in description or any(nat in description for nat in [...])`. -/
def hasPersonHint (c : Candidate) : Bool :=
  containsSub (descLower c) "born" ||
    nationalityKeywords.any (fun k => containsSub (descLower c) k)

/-- Acceptance predicate of the first pass (skip filter + athlete keyword). -/
def passOne (c : Candidate) : Bool := !isSkipped c && hasAthleteKw c

/-- Acceptance predicate of the second pass (skip filter + person hint). -/
def passTwo (c : Candidate) : Bool := !isSkipped c && hasPersonHint c

/-- Acceptance predicate of the last-resort pass (skip filter only). -/
def passThree (c : Candidate) : Bool := !isSkipped c

/-- The three sequential `for result in results` loops of `_do_search`: each
loop `continue`s past rejected candidates and returns at its first acceptable
one, i.e. it is a `find?` of its acceptance predicate. -/
def selectCandidate (results : List Candidate) : Option Candidate :=
  match results.find? passOne with
  | some c => some c
  | none =>
    match results.find? passTwo with
    | some c => some c
    | none => results.find? passThree

/-- First candidate of the worked disambiguation example: rejected because its
description contains the non-person keyword `"match"`. -/
def exCand1 : Candidate := ⟨"Q1", "2018 FIFA World Cup Final", "2018 football match"⟩

/-- Second candidate of the worked disambiguation example: accepted in pass 1
(`"footballer"` is an athlete keyword). -/
def exCand2 : Candidate := ⟨"Q2", "Lionel Messi", "Argentine footballer"⟩

/-- The candidate list of the worked disambiguation example. -/
def exCands : List Candidate := [exCand1, exCand2]

/-! ### Local matcher (`_search_local_exact`, `_search_local_partial`) -/

/-- The result of a successful lookup: the dict
`{"sport": ..., "country": ..., "matched_name": ...}` returned by the
matchers and by `_lookup_via_api`. -/
structure ResolvedEntity where
  sport : String
  country : Option String
  matchedName : String
deriving DecidableEq

/-- One row of the `athletes` sqlite table: `key` (lowercased name), `name`,
`sport`, `country`.  The ingestion scripts always store a string country
(`""` when unknown), so `country` is a plain `String` here. -/
structure Row where
  key : String
  name : String
  sport : String
  country : String
deriving DecidableEq

/-- Building the result dict from a fetched row:
`{"sport": row[1], "country": _normalize_country(row[2]) if row[2] else None,
"matched_name": row[0]}` (note: the row's sport is *not* re-normalized). -/
def rowToEntity (r : Row) : ResolvedEntity :=
  ⟨r.sport, if r.country = "" then none else some (normalizeCountry r.country), r.name⟩

/-- The `SELECT ... WHERE key = ?` query of `_search_local_exact` (`key` is the
primary key, so the first hit is the only hit). -/
def exactRow (rows : List Row) (name : String) : Option Row :=
  let key := pyStrip (strLower name)
  rows.find? (fun r => r.key == key)

/-- SQL `ORDER BY length(key) ASC LIMIT 1`: a row of minimal key length among the
matches (ties resolved deterministically in favour of the earlier row). -/
def shortestRow : List Row → Option Row
  | [] => none
  | r :: rest =>
    match shortestRow rest with
    | none => some r
    | some r2 => if r2.key.length < r.key.length then some r2 else some r

/-- The `SELECT ... WHERE key LIKE '% <key>' ORDER BY length(key) ASC LIMIT 1`
query of `_search_local_partial`: rows whose key matches the LIKE pattern
`"% " + key` (the lowercased stripped query is spliced into the pattern, so
`%`/`_` inside it act as wildcards and letters compare case-insensitively),
shortest key first. -/
def suffixRow (rows : List Row) (name : String) : Option Row :=
  let key := pyStrip (strLower name)
  shortestRow (rows.filter (fun r => likeMatch ("% " ++ key) r.key))

/-- Embedding of `_search_local_exact` with the index's failure modes explicit:
`none` = the sqlite file does not exist, `some (Except.error ())` = a sqlite
operation raised `sqlite3.Error` (caught by the function), `some (Except.ok
rows)` = readable table content.  Every failure mode returns `None`. -/
def searchLocalExact (db : Option (Except Unit (List Row))) (name : String) :
    Option ResolvedEntity :=
  match db with
  | none => none
  | some (Except.error _) => none
  | some (Except.ok rows) => (exactRow rows name).map rowToEntity

/-- Embedding of `_search_local_partial`, same failure-mode conventions as
`searchLocalExact`. -/
def searchLocalSuffix (db : Option (Except Unit (List Row))) (name : String) :
    Option ResolvedEntity :=
  match db with
  | none => none
  | some (Except.error _) => none
  | some (Except.ok rows) => (suffixRow rows name).map rowToEntity

/-! ### External stages with explicit failure modes -/

/-- The body of a 200 response, as `response.json()` and the subsequent
`.get` chain observe it.  `parseError`: the body is not JSON —
`response.json()` raises `requests.exceptions.JSONDecodeError`, a
`RequestException` subclass, so the stage's handler catches it.
`wrongShape`: the body is valid JSON but not the expected object layout
(e.g. a top-level array, or non-dict members), so some `.get` in the chain
raises `AttributeError` — which `except requests.RequestException` does NOT
catch.  `ok a`: the expected shape, flattened content. -/
inductive JsonShape (α : Type) where
  | parseError
  | wrongShape
  | ok (a : α)
deriving DecidableEq

/-- An HTTP response as the code observes it: a status code and the parsed
body. -/
structure HttpResult (α : Type) where
  status : Nat
  payload : JsonShape α

/-- Embedding of `_do_search` over an explicit response value, with the escape
path in the type: `Except.ok (·)` is a normal return, `Except.error ()` is an
uncaught Python exception crossing the function boundary.
`Except.error` input = `requests.RequestException` (timeout, connection
error) — caught, returns `None`; non-200 status — returns `None`;
unparseable body — `JSONDecodeError ⊆ RequestException`, caught, `None`;
valid JSON of the wrong shape — uncaught `AttributeError` at
`data.get("search", [])` or `result.get(...)`, escapes; a well-shaped
`search` array is disambiguated by `selectCandidate`. -/
def doSearchNet (resp : Except Unit (HttpResult (List Candidate))) :
    Except Unit (Option (String × String)) :=
  match resp with
  | Except.error _ => Except.ok none
  | Except.ok r =>
    if r.status ≠ 200 then Except.ok none
    else
      match r.payload with
      | JsonShape.parseError => Except.ok none
      | JsonShape.wrongShape => Except.error ()
      | JsonShape.ok results =>
        Except.ok
          (if results.isEmpty then none
           else
            match selectCandidate results with
            | some c => some (c.id, c.label)
            | none => none)

/-! ### Entity claims and sport/country extraction -/

/-- The claims of a Wikidata entity, flattened to the three properties the
code reads: `P641` (sport), `P106` (occupation), `P27` (country of
citizenship).  The outer `Option` is dict-key presence; each claim in a list
is the `mainsnak.datavalue.value.id` chain, `none` when any link is
missing. -/
structure WClaims where
  p641 : Option (List (Option String))
  p106 : Option (List (Option String))
  p27 : Option (List (Option String))
deriving DecidableEq

/-- Embedding of `_get_entity` over an explicit response: a well-shaped
payload is the `entities[entity_id]` object's claims (absent when the id is
not in the response); a valid-JSON-wrong-shape body makes
`data.get("entities", {})` / `entities.get(entity_id)` raise an uncaught
`AttributeError` (`Except.error ()`); transport errors, non-200 statuses and
unparseable bodies are caught and return `None`. -/
def getEntityNet (resp : Except Unit (HttpResult (Option WClaims))) :
    Except Unit (Option WClaims) :=
  match resp with
  | Except.error _ => Except.ok none
  | Except.ok r =>
    if r.status ≠ 200 then Except.ok none
    else
      match r.payload with
      | JsonShape.parseError => Except.ok none
      | JsonShape.wrongShape => Except.error ()
      | JsonShape.ok ent => Except.ok ent

/-- The network layer of `_get_label` over an explicit response: a
well-shaped payload is `labels.en.value` (absent when there is no English
label); a valid-JSON-wrong-shape body makes the
`data.get("entities", {})` … `labels.get("en", {})` chain raise an uncaught
`AttributeError` (`Except.error ()`); transport errors, non-200 statuses and
unparseable bodies are caught and return `None`. -/
def getLabelNet (resp : Except Unit (HttpResult (Option String))) :
    Except Unit (Option String) :=
  match resp with
  | Except.error _ => Except.ok none
  | Except.ok r =>
    if r.status ≠ 200 then Except.ok none
    else
      match r.payload with
      | JsonShape.parseError => Except.ok none
      | JsonShape.wrongShape => Except.error ()
      | JsonShape.ok lbl => Except.ok lbl

/-- The `id = claim.get(...).get("id"); if id: label = _get_label(id);
if label:` pattern shared by `_extract_sport` and `_extract_country`
(athlete_lookup.py lines 315-318, 324-327, 388-391): the claim's id must be
present *and truthy* (non-empty), and its label lookup must return a truthy
(non-empty) label; otherwise the claim does not resolve. -/
def resolveClaimId (labels : String → Option String) (c0 : Option String) :
    Option String :=
  match c0 with
  | none => none
  | some cid =>
    if cid = "" then none  -- Python: `if sport_id:` is false for ""
    else
      match labels cid with
      | none => none
      | some lbl => if lbl = "" then none else some lbl  -- `if sport:`

/-- The `P641` branch of `_extract_sport`: only the *first* sport claim is
read; when its id and label resolve (truthily), the label is normalized. -/
def viaSportClaim (labels : String → Option String) (claims : WClaims) :
    Option String :=
  match claims.p641 with
  | some (c0 :: _) =>
    match resolveClaimId labels c0 with
    | some sport => some (normalizeSport sport)
    | none => none
  | _ => none

/-- The `P106` fallback loop of `_extract_sport`: the first occupation claim
whose id and label resolve and whose label `_occupation_to_sport` maps to a
*truthy* sport (`if sport:` skips a falsy result, e.g. the empty string that
`" player"` maps to, and continues the loop). -/
def occupationScan (labels : String → Option String) (claims : WClaims) :
    Option String :=
  match claims.p106 with
  | none => none
  | some occs =>
    occs.findSome? (fun oc =>
      match resolveClaimId labels oc with
      | none => none
      | some occupation =>
        match occupationToSport occupation with
        | none => none
        | some sport => if sport = "" then none else some sport)

/-- Embedding of `_extract_sport`, parameterized by the Q-id → English-label
oracle (`_get_label`'s observable behaviour). -/
def extractSport (labels : String → Option String) (claims : WClaims) :
    Option String :=
  match viaSportClaim labels claims with
  | some s => some s
  | none => occupationScan labels claims

/-- Embedding of `_extract_country`: only the first `P27` claim is read, with
the same truthiness checks on its id and label. -/
def extractCountry (labels : String → Option String) (claims : WClaims) :
    Option String :=
  match claims.p27 with
  | some (c0 :: _) =>
    match resolveClaimId labels c0 with
    | some country => some (normalizeCountry country)
    | none => none
  | _ => none

/-- Embedding of `_lookup_via_api`, parameterized by the entity-search, the
entity-fetch and the label oracles. -/
def lookupViaApi (search : String → Option (String × String))
    (getEnt : String → Option WClaims) (labels : String → Option String)
    (name : String) : Option ResolvedEntity :=
  match search name with
  | none => none
  | some (entityId, matchedName) =>
    match getEnt entityId with
    | none => none
    | some claims =>
      match extractSport labels claims with
      | none => none
      | some sport => some ⟨sport, extractCountry labels claims, matchedName⟩

/-! ### Resolution orchestrator (`lookup_athlete`) -/

/-- The `FAMOUS_ATHLETES` alias table, in source order. -/
def FAMOUS_ATHLETES : List (String × String) := [
  ("nadal", "Rafael Nadal"), ("federer", "Roger Federer"),
  ("djokovic", "Novak Djokovic"), ("messi", "Lionel Messi"),
  ("ronaldo", "Cristiano Ronaldo"), ("neymar", "Neymar"),
  ("lebron", "LeBron James"), ("kobe", "Kobe Bryant"),
  ("jordan", "Michael Jordan"), ("serena", "Serena Williams"),
  ("venus", "Venus Williams"), ("tiger", "Tiger Woods"),
  ("bolt", "Usain Bolt"), ("phelps", "Michael Phelps"),
  ("sharapova", "Maria Sharapova"), ("beckham", "David Beckham"),
  ("zidane", "Zinedine Zidane"), ("maradona", "Diego Maradona"),
  ("pele", "Pelé"), ("tyson", "Mike Tyson"), ("ali", "Muhammad Ali"),
  ("schumacher", "Michael Schumacher"), ("hamilton", "Lewis Hamilton"),
  ("verstappen", "Max Verstappen"), ("curry", "Stephen Curry"),
  ("durant", "Kevin Durant"), ("mbappe", "Kylian Mbappé"),
  ("haaland", "Erling Haaland"), ("modric", "Luka Modrić"),
  ("benzema", "Karim Benzema")]

/-- Python `FAMOUS_ATHLETES[name.lower()]` as a table lookup. -/
def famousLookup (k : String) : Option String :=
  (FAMOUS_ATHLETES.find? (fun p => p.1 == k)).map Prod.snd

/-- Step 0 of `lookup_athlete`: when the lowercased input is a famous alias,
try the exact local match and then the API on the substituted full name; fall
through (`none`) when the alias is absent or both inner lookups fail. -/
def famousShortcut (exact api : String → Option ResolvedEntity)
    (nameLower : String) : Option ResolvedEntity :=
  match famousLookup nameLower with
  | none => none
  | some fullName =>
    match exact fullName with
    | some r => some r
    | none => api fullName

/-- Embedding of `lookup_athlete`, parameterized by the three strategies it
sequences: the exact local matcher, the local suffix matcher
(`_search_local_partial`) and the API lookup.  `is_single_word` is
`" " not in name` on the stripped input. -/
def lookupAthlete (exact suffixM api : String → Option ResolvedEntity)
    (athlete_name : String) : Option ResolvedEntity :=
  let name := pyStrip athlete_name
  let isSingleWord := !(name.data.contains ' ')
  match famousShortcut exact api (strLower name) with
  | some r => some r
  | none =>
    match exact name with
    | some r => some r
    | none =>
      if isSingleWord then
        match api name with
        | some r => some r
        | none => suffixM name
      else
        match suffixM name with
        | some r => some r
        | none => api name

/-! ### Label cache (`_get_label`) -/

/-- Embedding of `_get_label` with the module-level `_label_cache` made an
explicit state.  `fetch` is the network layer's observable result (`none` =
transport failure, non-200, or missing English label; `some l` = label `l`,
possibly empty).  Returns the result, the new cache, and whether a network
request was issued.  The Python code caches only under `if en_label:`, i.e.
not for an empty label. -/
def getLabel (fetch : String → Option String)
    (cache : String → Option String) (entity_id : String) :
    Option String × (String → Option String) × Bool :=
  match cache entity_id with
  | some l => (some l, cache, false)
  | none =>
    match fetch entity_id with
    | none => (none, cache, true)
    | some l =>
      (some l,
       (if l = "" then cache
        else fun x => if x = entity_id then some l else cache x),
       true)

/-- The cache produced by a sequence of `_get_label` calls in one process. -/
def runLabelCalls (fetch : String → Option String)
    (cache : String → Option String) (ids : List String) :
    String → Option String :=
  ids.foldl (fun c i => (getLabel fetch c i).2.1) cache

/-! ### The controlled sport vocabulary (C8) -/

/-- A sport value allowed for a successful resolution: a value of the
`_normalize_sport` table, or a title-cased string. -/
def sportOk (s : String) : Prop :=
  s ∈ normalizations.map Prod.snd ∨ ∃ t, s = pyTitle t

/-- Decidable sufficient check for `sportOk` (the title-case disjunct is
witnessed by the lowercased string). -/
def sportOkB (s : String) : Bool :=
  decide (s ∈ normalizations.map Prod.snd) || pyTitle (strLower s) == s

/-! ### Concrete instances used by witnesses and counterexamples -/

/-- Local index with two rows whose keys end in `" federer"`. -/
def fedRow1 : Row := ⟨"roger federer", "Roger Federer", "Tennis", "Switzerland"⟩

/-- The longer-keyed federer row. -/
def fedRow2 : Row := ⟨"another federer", "Another Federer", "Tennis", ""⟩

/-- The two-row federer index of the suffix-match example. -/
def fedDb : List Row := [fedRow1, fedRow2]

/-- A resolved entity used by the orchestrator counterexample. -/
def nadalEntity : ResolvedEntity := ⟨"Tennis", some "Spain", "Rafael Nadal"⟩

/-- Exact-match oracle that only knows the aliased full name
`"Rafael Nadal"`. -/
def cexExact : String → Option ResolvedEntity :=
  fun s => if s = "Rafael Nadal" then some nadalEntity else none

/-- A strategy oracle that always fails. -/
def cexNone : String → Option ResolvedEntity := fun _ => none

/-- Search oracle returning a fixed candidate. -/
def c6SearchOracle : String → Option (String × String) :=
  fun _ => some ("Q100", "Test Person")

/-- An entity with no claims at all. -/
def c6EntityNoSport : WClaims := ⟨none, none, none⟩

/-- An entity whose first `P641` claim is the id `"S1"`. -/
def c6EntityTennis : WClaims := ⟨some [some "S1"], none, none⟩

/-- Entity-fetch oracle returning the claim-less entity. -/
def c6GetEntNoSport : String → Option WClaims := fun _ => some c6EntityNoSport

/-- Entity-fetch oracle returning the tennis entity. -/
def c6GetEntTennis : String → Option WClaims := fun _ => some c6EntityTennis

/-- Label oracle resolving only `"S1"`, to the raw label `"tennis"`. -/
def c6Labels : String → Option String :=
  fun i => if i = "S1" then some "tennis" else none

/-- Resolved entity for the multi-token orchestrator witness. -/
def janeEntity : ResolvedEntity := ⟨"Boxing", none, "Jane Smith"⟩

/-- Suffix-match oracle that answers for the stripped input
`"Jane Smith"` (the matcher itself lowercases internally). -/
def janeSuffix : String → Option ResolvedEntity :=
  fun s => if s = "Jane Smith" then some janeEntity else none

/-- A row whose key does not *end with* `" 100%"` but does match the LIKE
pattern `"% 100%"` (the trailing `%` of the query acts as a wildcard). -/
def likeRow : Row := ⟨"a 100x", "A 100x", "Tennis", ""⟩

/-- An entity whose only claim is a sport claim with id `"S2"`. -/
def c6EntityEmptyLabel : WClaims := ⟨some [some "S2"], none, none⟩

/-- Entity-fetch oracle returning the `"S2"` entity. -/
def c6GetEntEmptyLabel : String → Option WClaims := fun _ => some c6EntityEmptyLabel

/-- Label oracle that resolves every id to the *empty* label — falsy in
Python, so no claim resolves through it. -/
def emptyLabels : String → Option String := fun _ => some ""

/-- Label-fetch oracle for the cache witness: resolves only `"Q1"`. -/
def fetch0 : String → Option String :=
  fun i => if i = "Q1" then some "Label1" else none

/-- The empty label cache. -/
def cache0 : String → Option String := fun _ => none

/-- A cache holding one entry for `"Q9"`. -/
def cache9 : String → Option String :=
  fun x => if x = "Q9" then some "L9" else none

/-! ### Theorems -/

example : strLower "Handball Athlete" = "handball athlete" := by decide
example : pyTitle "handball athlete" = "Handball Athlete" := by decide
example : removeAll "polo player" " player" = "polo" := by decide
example : containsSub "argentine footballer" "footballer" = true := by decide
example : containsSub "2018 football match" "match" = true := by decide
example : endsWithStr "roger federer" " federer" = true := by decide
example : pyStrip "  federer " = "federer" := by decide

theorem occLoop_eq_find (l : List (String × String)) (s : String) :
    occLoop l s = (l.find? (fun p => containsSub s (strLower p.1))).map Prod.snd := by
  induction l with
  | nil => rfl
  | cons hd tl ih =>
    cases hd with
    | mk k v =>
      simp only [occLoop, List.find?]
      by_cases h : containsSub s (strLower k) = true
      · simp [h]
      · simp only [Bool.not_eq_true] at h
        simp [h, ih]

/-- C4 (counterexample).  For the occupation label `"handball athlete"` no
table key matches and the lower-cased label contains the word `"athlete"`,
so the claim demands that the word be stripped, giving `"Handball"`; the code
only deletes `" player"` and returns `"Handball Athlete"`. -/
theorem C4_counterexample :
    occLoop occupationMappings (strLower "handball athlete") = none ∧
    containsSub (strLower "handball athlete") "athlete" = true ∧
    occupationToSport "handball athlete" = some "Handball Athlete" ∧
    occupationToSport "handball athlete" ≠ some "Handball" := by
  refine ⟨by decide, by decide, by decide, by decide⟩

/-- C4 (amended).  For every occupation label, `_occupation_to_sport` returns
the sport of the first table entry (table order is the tie-break) whose key is
a substring of the lower-cased label; if no key matches but the lower-cased
label contains `"player"` or `"athlete"`, it returns the original label with
every literal `" player"` removed and then title-cased (the word `"athlete"`
is not stripped); otherwise it returns absent. -/
theorem C4_occupation_to_sport (occupation : String) :
    occupationToSport occupation = occupationToSportSpec occupation := by
  simp only [occupationToSport, occupationToSportSpec, occLoop_eq_find]
  cases h : occupationMappings.find?
      (fun p => containsSub (strLower occupation) (strLower p.1)) with
  | none => simp [h]
  | some p => simp [h]

theorem passOne_iff (c : Candidate) :
    passOne c = true ↔ isSkipped c = false ∧ hasAthleteKw c = true := by
  simp [passOne, Bool.and_eq_true, Bool.not_eq_true']

theorem passTwo_iff (c : Candidate) :
    passTwo c = true ↔ isSkipped c = false ∧ hasPersonHint c = true := by
  simp [passTwo, Bool.and_eq_true, Bool.not_eq_true']

theorem passThree_iff (c : Candidate) :
    passThree c = true ↔ isSkipped c = false := by
  simp [passThree, Bool.not_eq_true']

/-- Lemma: `find?` returns the first element satisfying the predicate: decomposition
of the list around the returned element. -/
theorem find?_decomp {α : Type} (p : α → Bool) (l : List α) (a : α)
    (h : l.find? p = some a) :
    p a = true ∧ ∃ l1 l2, l = l1 ++ a :: l2 ∧ ∀ x ∈ l1, p x = false := by
  induction l with
  | nil => simp [List.find?] at h
  | cons hd tl ih =>
    by_cases hp : p hd = true
    · rw [List.find?_cons_of_pos _ hp] at h
      cases h
      exact ⟨hp, [], tl, rfl, by simp⟩
    · rw [List.find?_cons_of_neg _ (by simpa using hp)] at h
      obtain ⟨hpa, l1, l2, heq, hall⟩ := ih h
      refine ⟨hpa, hd :: l1, l2, by simp [heq], ?_⟩
      intro x hx
      rcases List.mem_cons.1 hx with rfl | hx'
      · simpa using hp
      · exact hall x hx'

/-- Lemma: `count / total * 100 ≤ k` over `ℚ` is the cross-multiplied comparison
`100 * count ≤ k * total`, for a positive denominator. -/
theorem pct_le_iff (c t k : Nat) (ht : 0 < t) :
    ((c : ℚ) / (t : ℚ) * 100 ≤ (k : ℚ)) ↔ 100 * c ≤ k * t := by
  rw [div_mul_eq_mul_div, div_le_iff₀ (by exact_mod_cast ht)]
  constructor
  · intro h
    have h' : ((c : ℚ) * 100) ≤ (k : ℚ) * (t : ℚ) := h
    have : ((100 * c : Nat) : ℚ) ≤ ((k * t : Nat) : ℚ) := by push_cast; linarith
    exact_mod_cast this
  · intro h
    have : ((100 * c : Nat) : ℚ) ≤ ((k * t : Nat) : ℚ) := by exact_mod_cast h
    push_cast at this
    linarith

theorem total_pos (athletes : List CollEntry) :
    0 < (if athletes.length = 0 then 1 else athletes.length) := by
  split
  · exact Nat.one_pos
  · omega

theorem if_len_eq_max (n : Nat) : (if n = 0 then 1 else n) = max n 1 := by
  rcases Nat.eq_zero_or_pos n with h | h
  · simp [h]
  · rw [if_neg (by omega), Nat.max_eq_left (by omega)]

theorem bonus_thresholds_sport (cnt t : Nat) (ht : 0 < t) :
    (if (cnt : ℚ) / (t : ℚ) * 100 ≤ 2 then (4 : Nat)
     else if (cnt : ℚ) / (t : ℚ) * 100 ≤ 5 then 3
     else if (cnt : ℚ) / (t : ℚ) * 100 ≤ 15 then 2
     else if (cnt : ℚ) / (t : ℚ) * 100 ≤ 30 then 1 else 0) =
    (if 100 * cnt ≤ 2 * t then 4
     else if 100 * cnt ≤ 5 * t then 3
     else if 100 * cnt ≤ 15 * t then 2
     else if 100 * cnt ≤ 30 * t then 1 else 0) := by
  have h2 := pct_le_iff cnt t 2 ht
  have h5 := pct_le_iff cnt t 5 ht
  have h15 := pct_le_iff cnt t 15 ht
  have h30 := pct_le_iff cnt t 30 ht
  norm_num at h2 h5 h15 h30
  simp only [h2, h5, h15, h30]

theorem bonus_thresholds_country (cnt t : Nat) (ht : 0 < t) :
    (if (cnt : ℚ) / (t : ℚ) * 100 ≤ 2 then (2 : Nat)
     else if (cnt : ℚ) / (t : ℚ) * 100 ≤ 5 then 1 else 0) =
    (if 100 * cnt ≤ 2 * t then 2
     else if 100 * cnt ≤ 5 * t then 1 else 0) := by
  have h2 := pct_le_iff cnt t 2 ht
  have h5 := pct_le_iff cnt t 5 ht
  norm_num at h2 h5
  simp only [h2, h5]

/-- C1 (counterexample).  At sport `"X"`, country `some ""` and the empty
collection, the code returns `(5, 4, 0)` (the Python truthiness test
`if country:` skips an empty country string), while the claim — country bonus
computed from the percentage whenever the country is present — demands
`(7, 4, 2)`. -/
theorem C1_counterexample :
    calculate_athlete_points "X" (some "") [] = (5, 4, 0) ∧
    calcPointsClaim "X" (some "") [] = (7, 4, 2) ∧
    calculate_athlete_points "X" (some "") [] ≠ calcPointsClaim "X" (some "") [] := by
  have hA : calculate_athlete_points "X" (some "") [] = (5, 4, 0) := by
    norm_num [calculate_athlete_points]
  have hB : calcPointsClaim "X" (some "") [] = (7, 4, 2) := by
    norm_num [calcPointsClaim]
  exact ⟨hA, hB, by rw [hA, hB]; decide⟩

/-- C1 (amended).  For every sport, optional country and collection,
`calculate_athlete_points` returns `(1 + sportBonus + countryBonus,
sportBonus, countryBonus)` with `total = max(len(collection), 1)`, the sport
bonus given by the inclusive ascending thresholds 2/5/15/30 on the percentage
of entries with that sport, and the country bonus given by the thresholds 2/5
on the percentage of entries with that exact country — except that the bonus
is 0 not only when the country is absent but also when it is the empty
string. -/
theorem C1_rarity_scorer (sport : String) (country : Option String)
    (athletes : List CollEntry) :
    calculate_athlete_points sport country athletes =
      calcPointsAmended sport country athletes := by
  have ht : 0 < max athletes.length 1 :=
    Nat.lt_of_lt_of_le Nat.one_pos (Nat.le_max_right _ _)
  simp only [calculate_athlete_points, calcPointsAmended, if_len_eq_max]
  rw [bonus_thresholds_sport _ _ ht]
  cases country with
  | none => rfl
  | some cc =>
    by_cases hcc : cc = ""
    · simp [hcc]
    · simp only [if_neg hcc]
      rw [bonus_thresholds_country _ _ ht]

/-- C3.  For every non-empty candidate list, `_do_search`'s disambiguation
selects exactly one candidate by three-pass priority: a candidate whose
description contains a non-person keyword is never selected in any pass; it
fails exactly when every candidate is rejected by the non-person filter;
pass 1 selects the first non-rejected candidate with a sport/athlete-role
keyword; pass 2 (only when pass 1 finds nothing) the first non-rejected
candidate with "born" or a nationality adjective; pass 3 (only when pass 2
finds nothing) the first non-rejected candidate unconditionally. -/
theorem C3_disambiguation (l : List Candidate) (hne : l ≠ []) :
    (∀ c, selectCandidate l = some c → c ∈ l ∧ isSkipped c = false) ∧
    (selectCandidate l = none ↔ ∀ c ∈ l, isSkipped c = true) ∧
    ((∃ c ∈ l, isSkipped c = false ∧ hasAthleteKw c = true) →
      ∃ l1 c l2, l = l1 ++ c :: l2 ∧ isSkipped c = false ∧ hasAthleteKw c = true ∧
        (∀ x ∈ l1, ¬(isSkipped x = false ∧ hasAthleteKw x = true)) ∧
        selectCandidate l = some c) ∧
    ((∀ c ∈ l, ¬(isSkipped c = false ∧ hasAthleteKw c = true)) →
      (∃ c ∈ l, isSkipped c = false ∧ hasPersonHint c = true) →
      ∃ l1 c l2, l = l1 ++ c :: l2 ∧ isSkipped c = false ∧ hasPersonHint c = true ∧
        (∀ x ∈ l1, ¬(isSkipped x = false ∧ hasPersonHint x = true)) ∧
        selectCandidate l = some c) ∧
    ((∀ c ∈ l, ¬(isSkipped c = false ∧ hasAthleteKw c = true)) →
      (∀ c ∈ l, ¬(isSkipped c = false ∧ hasPersonHint c = true)) →
      (∃ c ∈ l, isSkipped c = false) →
      ∃ l1 c l2, l = l1 ++ c :: l2 ∧ isSkipped c = false ∧
        (∀ x ∈ l1, isSkipped x = true) ∧
        selectCandidate l = some c) := by
  refine ⟨?_, ?_, ?_, ?_, ?_⟩
  · -- a selected candidate is in the list and not rejected
    intro c hc
    unfold selectCandidate at hc
    cases h1 : l.find? passOne with
    | some c1 =>
      rw [h1] at hc
      cases hc
      exact ⟨List.mem_of_find?_eq_some h1, ((passOne_iff c).1 (List.find?_some h1)).1⟩
    | none =>
      rw [h1] at hc
      cases h2 : l.find? passTwo with
      | some c2 =>
        rw [h2] at hc
        cases hc
        exact ⟨List.mem_of_find?_eq_some h2, ((passTwo_iff c).1 (List.find?_some h2)).1⟩
      | none =>
        rw [h2] at hc
        exact ⟨List.mem_of_find?_eq_some hc, ((passThree_iff c).1 (List.find?_some hc))⟩
  · -- fails exactly when every candidate is rejected
    constructor
    · intro hc c hcl
      unfold selectCandidate at hc
      cases h1 : l.find? passOne with
      | some c1 => rw [h1] at hc; cases hc
      | none =>
        rw [h1] at hc
        cases h2 : l.find? passTwo with
        | some c2 => rw [h2] at hc; cases hc
        | none =>
          rw [h2] at hc
          have := List.find?_eq_none.1 hc c hcl
          simpa [passThree_iff] using this
    · intro hall
      have h1 : l.find? passOne = none := by
        rw [List.find?_eq_none]
        intro c hcl hp
        rcases (passOne_iff c).1 hp with ⟨hs, _⟩
        rw [hall c hcl] at hs
        cases hs
      have h2 : l.find? passTwo = none := by
        rw [List.find?_eq_none]
        intro c hcl hp
        rcases (passTwo_iff c).1 hp with ⟨hs, _⟩
        rw [hall c hcl] at hs
        cases hs
      have h3 : l.find? passThree = none := by
        rw [List.find?_eq_none]
        intro c hcl hp
        rw [passThree_iff] at hp
        rw [hall c hcl] at hp
        cases hp
      unfold selectCandidate
      rw [h1, h2, h3]
  · -- pass 1 picks the first eligible candidate
    rintro ⟨c0, hc0l, hc0⟩
    cases h1 : l.find? passOne with
    | none =>
      exfalso
      have := List.find?_eq_none.1 h1 c0 hc0l
      exact this ((passOne_iff c0).2 hc0)
    | some c =>
      obtain ⟨hp, l1, l2, heq, hall⟩ := find?_decomp _ _ _ h1
      rcases (passOne_iff c).1 hp with ⟨hs, hk⟩
      refine ⟨l1, c, l2, heq, hs, hk, ?_, ?_⟩
      · intro x hx hcontra
        have := hall x hx
        rw [(passOne_iff x).2 hcontra] at this
        cases this
      · unfold selectCandidate
        rw [h1]
  · -- pass 2 runs only when pass 1 found nothing
    intro hnone1
    rintro ⟨c0, hc0l, hc0⟩
    have h1 : l.find? passOne = none := by
      rw [List.find?_eq_none]
      intro c hcl hp
      exact hnone1 c hcl ((passOne_iff c).1 hp)
    cases h2 : l.find? passTwo with
    | none =>
      exfalso
      have := List.find?_eq_none.1 h2 c0 hc0l
      exact this ((passTwo_iff c0).2 hc0)
    | some c =>
      obtain ⟨hp, l1, l2, heq, hall⟩ := find?_decomp _ _ _ h2
      rcases (passTwo_iff c).1 hp with ⟨hs, hk⟩
      refine ⟨l1, c, l2, heq, hs, hk, ?_, ?_⟩
      · intro x hx hcontra
        have := hall x hx
        rw [(passTwo_iff x).2 hcontra] at this
        cases this
      · unfold selectCandidate
        rw [h1, h2]
  · -- pass 3 accepts the first non-rejected candidate
    intro hnone1 hnone2
    rintro ⟨c0, hc0l, hc0⟩
    have h1 : l.find? passOne = none := by
      rw [List.find?_eq_none]
      intro c hcl hp
      exact hnone1 c hcl ((passOne_iff c).1 hp)
    have h2 : l.find? passTwo = none := by
      rw [List.find?_eq_none]
      intro c hcl hp
      exact hnone2 c hcl ((passTwo_iff c).1 hp)
    cases h3 : l.find? passThree with
    | none =>
      exfalso
      have := List.find?_eq_none.1 h3 c0 hc0l
      exact this ((passThree_iff c0).2 hc0)
    | some c =>
      obtain ⟨hp, l1, l2, heq, hall⟩ := find?_decomp _ _ _ h3
      rw [passThree_iff] at hp
      refine ⟨l1, c, l2, heq, hp, ?_, ?_⟩
      · intro x hx
        have := hall x hx
        rw [passThree] at this
        simpa using this
      · unfold selectCandidate
        rw [h1, h2, h3]

/-- C3 witness: on the claim's concrete candidate list — first description
`"2018 football match"`, second `"Argentine footballer"` — the second entry is
selected, and (by the theorem, applied at this list) any selected candidate is
a non-rejected member of the list. -/
theorem C3_disambiguation_witness :
    selectCandidate exCands = some exCand2 ∧
    (∀ c, selectCandidate exCands = some c → c ∈ exCands ∧ isSkipped c = false) :=
  ⟨by decide, (C3_disambiguation exCands (by decide)).1⟩

/-- Helper: `shortestRow` returns a member of minimal key length, and `none` exactly
on the empty list. -/
theorem shortestRow_spec (l : List Row) :
    (shortestRow l = none ↔ l = []) ∧
    (∀ r, shortestRow l = some r →
      r ∈ l ∧ ∀ r2 ∈ l, r.key.length ≤ r2.key.length) := by
  induction l with
  | nil =>
    exact ⟨by simp [shortestRow], by intro r h; simp [shortestRow] at h⟩
  | cons hd tl ih =>
    constructor
    · constructor
      · intro h
        exfalso
        cases hrec : shortestRow tl with
        | none => simp [shortestRow, hrec] at h
        | some v =>
          simp only [shortestRow, hrec] at h
          split at h <;> cases h
      · intro h; cases h
    · intro r hr
      cases hrec : shortestRow tl with
      | none =>
        simp only [shortestRow, hrec] at hr
        cases hr
        have htl : tl = [] := (ih.1).1 hrec
        subst htl
        refine ⟨List.mem_singleton_self _, ?_⟩
        intro r2 hr2
        rcases List.mem_singleton.1 hr2 with rfl
        exact Nat.le_refl _
      | some rmin =>
        simp only [shortestRow, hrec] at hr
        obtain ⟨hmem, hmin⟩ := ih.2 rmin hrec
        by_cases hlt : rmin.key.length < hd.key.length
        · rw [if_pos hlt] at hr
          cases hr
          refine ⟨List.mem_cons_of_mem _ hmem, ?_⟩
          intro r2 hr2
          rcases List.mem_cons.1 hr2 with rfl | hr2'
          · exact Nat.le_of_lt hlt
          · exact hmin r2 hr2'
        · rw [if_neg hlt] at hr
          cases hr
          refine ⟨List.mem_cons_self _ _, ?_⟩
          intro r2 hr2
          rcases List.mem_cons.1 hr2 with rfl | hr2'
          · exact Nat.le_refl _
          · exact Nat.le_trans (Nat.le_of_not_lt hlt) (hmin r2 hr2')

/-- C5 (counterexample).  The query is spliced into the SQL pattern
`'% <query>'`, so a `%` inside it is a LIKE wildcard: for query `"100%"`, the
key `"a 100x"` does not end with `" 100%"` — the claim therefore demands
absent — yet the query matches the row and the matcher returns it. -/
theorem C5_counterexample :
    endsWithStr likeRow.key (" " ++ pyStrip (strLower "100%")) = false ∧
    likeMatch ("% " ++ pyStrip (strLower "100%")) likeRow.key = true ∧
    suffixRow [likeRow] "100%" = some likeRow := by
  refine ⟨by decide, by decide, by decide⟩

/-- C5 (amended).  For every index and query, the suffix matcher returns a
row whose key matches the SQLite pattern `'% ' + lowercased stripped query`
under LIKE semantics (`%`/`_` in the query act as wildcards; letters compare
ASCII-case-insensitively — for a wildcard-free query and lowercase keys this
is the keys ending with a space followed by the query) and whose key length
is minimal among all matching rows, and returns absent exactly when no row's
key matches the pattern. -/
theorem C5_suffix_match (rows : List Row) (name : String) :
    (∀ r, suffixRow rows name = some r →
      r ∈ rows.filter
            (fun r2 => likeMatch ("% " ++ pyStrip (strLower name)) r2.key) ∧
      ∀ r2 ∈ rows.filter
            (fun r2 => likeMatch ("% " ++ pyStrip (strLower name)) r2.key),
        r.key.length ≤ r2.key.length) ∧
    (suffixRow rows name = none ↔
      rows.filter
        (fun r2 => likeMatch ("% " ++ pyStrip (strLower name)) r2.key) = []) := by
  have h := shortestRow_spec
    (rows.filter (fun r2 => likeMatch ("% " ++ pyStrip (strLower name)) r2.key))
  exact ⟨fun r hr => h.2 r hr, h.1⟩

/-- C5 witness: with the index `["roger federer", "another federer"]` and the
wildcard-free query `"federer"`, the LIKE filter coincides with the literal
ends-with filter, both rows match, and the matcher returns the shorter-keyed
`"roger federer"` row; the theorem, applied at this instance, certifies its
minimality among the matches. -/
theorem C5_suffix_match_witness :
    suffixRow fedDb "federer" = some fedRow1 ∧
    searchLocalSuffix (some (Except.ok fedDb)) "federer" =
      some ⟨"Tennis", some "Switzerland", "Roger Federer"⟩ ∧
    fedDb.filter (fun r2 => likeMatch ("% " ++ pyStrip (strLower "federer")) r2.key) =
      fedDb.filter (fun r2 => endsWithStr r2.key (" " ++ pyStrip (strLower "federer"))) ∧
    (fedRow1 ∈ fedDb.filter
        (fun r2 => likeMatch ("% " ++ pyStrip (strLower "federer")) r2.key) ∧
      ∀ r2 ∈ fedDb.filter
        (fun r2 => likeMatch ("% " ++ pyStrip (strLower "federer")) r2.key),
        fedRow1.key.length ≤ r2.key.length) :=
  ⟨by decide, by decide, by decide,
    (C5_suffix_match fedDb "federer").1 fedRow1 (by decide)⟩

/-- C7 (counterexample).  A 200 response whose body is syntactically valid
JSON of the wrong shape (e.g. a top-level array) makes the `.get` chain
raise `AttributeError`, which `except requests.RequestException` does not
catch: at each of the three network stages the exception crosses the function
boundary (`Except.error ()`) instead of the absent result the claim
demands. -/
theorem C7_counterexample :
    doSearchNet (Except.ok ⟨200, JsonShape.wrongShape⟩) = Except.error () ∧
    getEntityNet (Except.ok ⟨200, JsonShape.wrongShape⟩) = Except.error () ∧
    getLabelNet (Except.ok ⟨200, JsonShape.wrongShape⟩) = Except.error () :=
  ⟨rfl, rfl, rfl⟩

/-- C7 (amended).  A missing or corrupt local index makes the local matchers
return absent rather than raise, and the caught external failure modes —
transport error (`requests.RequestException`), non-200 status, and an
unparseable JSON body (`JSONDecodeError`, a `RequestException` subclass) —
make that stage return absent; however a syntactically valid JSON body of an
unexpected shape raises an uncaught `AttributeError` that does propagate out
of the stage. -/
theorem C7_failure_modes :
    (∀ name, searchLocalExact none name = none) ∧
    (∀ name, searchLocalExact (some (Except.error ())) name = none) ∧
    (∀ name, searchLocalSuffix none name = none) ∧
    (∀ name, searchLocalSuffix (some (Except.error ())) name = none) ∧
    (doSearchNet (Except.error ()) = Except.ok none) ∧
    (∀ st pl, st ≠ 200 → doSearchNet (Except.ok ⟨st, pl⟩) = Except.ok none) ∧
    (∀ st, doSearchNet (Except.ok ⟨st, JsonShape.parseError⟩) = Except.ok none) ∧
    (∀ st, doSearchNet (Except.ok ⟨st, JsonShape.wrongShape⟩) =
      if st = 200 then Except.error () else Except.ok none) ∧
    (getEntityNet (Except.error ()) = Except.ok none) ∧
    (∀ st pl, st ≠ 200 → getEntityNet (Except.ok ⟨st, pl⟩) = Except.ok none) ∧
    (∀ st, getEntityNet (Except.ok ⟨st, JsonShape.parseError⟩) = Except.ok none) ∧
    (∀ st, getEntityNet (Except.ok ⟨st, JsonShape.wrongShape⟩) =
      if st = 200 then Except.error () else Except.ok none) ∧
    (getLabelNet (Except.error ()) = Except.ok none) ∧
    (∀ st pl, st ≠ 200 → getLabelNet (Except.ok ⟨st, pl⟩) = Except.ok none) ∧
    (∀ st, getLabelNet (Except.ok ⟨st, JsonShape.parseError⟩) = Except.ok none) ∧
    (∀ st, getLabelNet (Except.ok ⟨st, JsonShape.wrongShape⟩) =
      if st = 200 then Except.error () else Except.ok none) := by
  refine ⟨fun _ => rfl, fun _ => rfl, fun _ => rfl, fun _ => rfl, rfl,
    ?_, ?_, ?_, rfl, ?_, ?_, ?_, rfl, ?_, ?_, ?_⟩
  · intro st pl h
    simp [doSearchNet, h]
  · intro st
    by_cases h : st = 200
    · subst h; simp [doSearchNet]
    · simp [doSearchNet, h]
  · intro st
    by_cases h : st = 200
    · subst h; simp [doSearchNet]
    · simp [doSearchNet, h]
  · intro st pl h
    simp [getEntityNet, h]
  · intro st
    by_cases h : st = 200
    · subst h; simp [getEntityNet]
    · simp [getEntityNet, h]
  · intro st
    by_cases h : st = 200
    · subst h; simp [getEntityNet]
    · simp [getEntityNet, h]
  · intro st pl h
    simp [getLabelNet, h]
  · intro st
    by_cases h : st = 200
    · subst h; simp [getLabelNet]
    · simp [getLabelNet, h]
  · intro st
    by_cases h : st = 200
    · subst h; simp [getLabelNet]
    · simp [getLabelNet, h]

/-- C7 witness: the amended theorem applied at concrete inputs — a 404 search
response and an absent local index each degrade to absent, and a wrong-shape
200 body escapes as an exception. -/
theorem C7_failure_modes_witness :
    doSearchNet (Except.ok ⟨404, JsonShape.ok exCands⟩) = Except.ok none ∧
    searchLocalExact none "federer" = none ∧
    doSearchNet (Except.ok ⟨200, JsonShape.wrongShape⟩) = Except.error () := by
  obtain ⟨h1, -, -, -, -, h6, -, h8, -, -, -, -, -, -, -, -⟩ := C7_failure_modes
  refine ⟨h6 404 (JsonShape.ok exCands) (by decide), h1 "federer", ?_⟩
  have := h8 200
  simpa using this

/-- C6.  When the winning entity's claims determine no sport
(`_extract_sport` yields nothing — no resolvable first `P641` claim and no
occupation claim mapped by `_occupation_to_sport`), the whole API lookup
returns absent; whereas a missing country (`_extract_country` yields nothing)
is not a failure: the lookup still succeeds with `country = None`. -/
theorem C6_no_sport_fails (search : String → Option (String × String))
    (getEnt : String → Option WClaims) (labels : String → Option String)
    (name : String) :
    (∀ entityId matchedName claims,
      search name = some (entityId, matchedName) →
      getEnt entityId = some claims →
      extractSport labels claims = none →
      lookupViaApi search getEnt labels name = none) ∧
    (∀ entityId matchedName claims sport,
      search name = some (entityId, matchedName) →
      getEnt entityId = some claims →
      extractSport labels claims = some sport →
      extractCountry labels claims = none →
      lookupViaApi search getEnt labels name = some ⟨sport, none, matchedName⟩) := by
  constructor
  · intro eid m claims hs hg he
    simp only [lookupViaApi, hs, hg, he]
  · intro eid m claims sport hs hg he hc
    simp only [lookupViaApi, hs, hg, he, hc]

/-- C6 witness: with a fixed search hit and an entity with no claims at all
the lookup returns `none`, and so does an entity whose only sport claim
resolves to the falsy empty label (Python's `if sport:` rejects it); with an
entity whose only claim is a resolvable sport (`"S1"` → `"tennis"`) and no
`P27` claim, the lookup succeeds with an absent country. -/
theorem C6_no_sport_fails_witness :
    lookupViaApi c6SearchOracle c6GetEntNoSport c6Labels "anyone" = none ∧
    lookupViaApi c6SearchOracle c6GetEntEmptyLabel emptyLabels "anyone" = none ∧
    lookupViaApi c6SearchOracle c6GetEntTennis c6Labels "anyone" =
      some ⟨"Tennis", none, "Test Person"⟩ := by
  refine ⟨?_, ?_, ?_⟩
  · exact (C6_no_sport_fails c6SearchOracle c6GetEntNoSport c6Labels "anyone").1
      "Q100" "Test Person" c6EntityNoSport rfl rfl (by decide)
  · exact (C6_no_sport_fails c6SearchOracle c6GetEntEmptyLabel emptyLabels "anyone").1
      "Q100" "Test Person" c6EntityEmptyLabel rfl rfl (by decide)
  · exact (C6_no_sport_fails c6SearchOracle c6GetEntTennis c6Labels "anyone").2
      "Q100" "Test Person" c6EntityTennis "Tennis" rfl rfl (by decide) (by decide)

theorem sportOkB_imp (s : String) (h : sportOkB s = true) : sportOk s := by
  simp only [sportOkB, Bool.or_eq_true, decide_eq_true_eq, beq_iff_eq] at h
  rcases h with h1 | h1
  · exact Or.inl h1
  · exact Or.inr ⟨strLower s, h1.symm⟩

theorem normalizeSport_ok (s : String) : sportOk (normalizeSport s) := by
  unfold normalizeSport
  cases h : normalizations.find? (fun p => p.1 == strLower s) with
  | none => exact Or.inr ⟨s, rfl⟩
  | some p =>
    exact Or.inl (List.mem_map_of_mem Prod.snd (List.mem_of_find?_eq_some h))

theorem findSome?_exists {α β : Type} (f : α → Option β) (l : List α) (b : β)
    (h : l.findSome? f = some b) : ∃ a ∈ l, f a = some b := by
  induction l with
  | nil => simp [List.findSome?] at h
  | cons hd tl ih =>
    rw [List.findSome?_cons] at h
    cases hfa : f hd with
    | some b2 =>
      rw [hfa] at h
      cases h
      exact ⟨hd, List.mem_cons_self _ _, hfa⟩
    | none =>
      rw [hfa] at h
      obtain ⟨a, ha, hfa2⟩ := ih h
      exact ⟨a, List.mem_cons_of_mem _ ha, hfa2⟩

theorem occLoop_some_mem (l : List (String × String)) (s v : String)
    (h : occLoop l s = some v) : ∃ p ∈ l, p.2 = v := by
  rw [occLoop_eq_find] at h
  cases hf : l.find? (fun p => containsSub s (strLower p.1)) with
  | none => rw [hf] at h; cases h
  | some p =>
    rw [hf] at h
    cases h
    exact ⟨p, List.mem_of_find?_eq_some hf, rfl⟩

theorem occupationMappings_ok : ∀ p ∈ occupationMappings, sportOkB p.2 = true := by
  decide

theorem occupationToSport_ok (o s : String)
    (h : occupationToSport o = some s) : sportOk s := by
  simp only [occupationToSport] at h
  cases hl : occLoop occupationMappings (strLower o) with
  | some v =>
    rw [hl] at h
    cases h
    obtain ⟨p, hp, hpv⟩ := occLoop_some_mem _ _ _ hl
    exact hpv ▸ sportOkB_imp p.2 (occupationMappings_ok p hp)
  | none =>
    rw [hl] at h
    by_cases hc :
        (containsSub (strLower o) "player" || containsSub (strLower o) "athlete") = true
    · rw [if_pos hc] at h
      injection h with h
      exact Or.inr ⟨removeAll o " player", h.symm⟩
    · rw [if_neg hc] at h
      cases h

theorem viaSportClaim_ok (labels : String → Option String) (claims : WClaims)
    (v : String) (hv : viaSportClaim labels claims = some v) :
    ∃ t, v = normalizeSport t := by
  unfold viaSportClaim at hv
  cases h641 : claims.p641 with
  | none => simp [h641] at hv
  | some claimList =>
    cases claimList with
    | nil => simp [h641] at hv
    | cons c0 rest =>
      simp only [h641] at hv
      cases hres : resolveClaimId labels c0 with
      | none => simp [hres] at hv
      | some sp =>
        simp only [hres, Option.some.injEq] at hv
        exact ⟨sp, hv.symm⟩

theorem extractSport_ok (labels : String → Option String) (claims : WClaims)
    (s : String) (h : extractSport labels claims = some s) : sportOk s := by
  unfold extractSport at h
  cases hv : viaSportClaim labels claims with
  | some v =>
    rw [hv] at h
    cases h
    obtain ⟨t, ht⟩ := viaSportClaim_ok labels claims _ hv
    exact ht ▸ normalizeSport_ok t
  | none =>
    rw [hv] at h
    unfold occupationScan at h
    cases h106 : claims.p106 with
    | none => rw [h106] at h; cases h
    | some occs =>
      rw [h106] at h
      obtain ⟨oc, _, hoc⟩ := findSome?_exists _ _ _ h
      cases hres : resolveClaimId labels oc with
      | none => simp [hres] at hoc
      | some occupation =>
        simp only [hres] at hoc
        cases hocc : occupationToSport occupation with
        | none => simp [hocc] at hoc
        | some sport =>
          simp only [hocc] at hoc
          by_cases hsp : sport = ""
          · rw [if_pos hsp] at hoc
            cases hoc
          · rw [if_neg hsp] at hoc
            cases hoc
            exact occupationToSport_ok _ _ hocc

/-- C8.  Every successful resolution carries a sport from the controlled
vocabulary — a value of the `_normalize_sport` table or a title-cased string:
the API path unconditionally (its sport comes from `_extract_sport`), and the
two local paths whenever every index row's sport is in the vocabulary (which
is how the ingestion scripts populate the index: a fixed list of sport names,
each a table value or title-cased). -/
theorem C8_sport_vocabulary :
    (∀ rows name r, (∀ row ∈ rows, sportOk row.sport) →
      searchLocalExact (some (Except.ok rows)) name = some r → sportOk r.sport) ∧
    (∀ rows name r, (∀ row ∈ rows, sportOk row.sport) →
      searchLocalSuffix (some (Except.ok rows)) name = some r → sportOk r.sport) ∧
    (∀ labels claims s, extractSport labels claims = some s → sportOk s) ∧
    (∀ search getEnt labels name r,
      lookupViaApi search getEnt labels name = some r → sportOk r.sport) := by
  refine ⟨?_, ?_, extractSport_ok, ?_⟩
  · intro rows name r hdb h
    simp only [searchLocalExact] at h
    cases hrow : exactRow rows name with
    | none => rw [hrow] at h; cases h
    | some row =>
      rw [hrow] at h
      cases h
      exact hdb row (List.mem_of_find?_eq_some hrow)
  · intro rows name r hdb h
    simp only [searchLocalSuffix] at h
    cases hrow : suffixRow rows name with
    | none => rw [hrow] at h; cases h
    | some row =>
      rw [hrow] at h
      cases h
      have hmem := ((shortestRow_spec _).2 row hrow).1
      exact hdb row (List.mem_of_mem_filter hmem)
  · intro search getEnt labels name r h
    unfold lookupViaApi at h
    split at h
    · cases h
    · split at h
      · cases h
      · split at h
        · cases h
        · cases h
          exact extractSport_ok labels _ _ (by assumption)

/-- C8 witness: the theorem applied along the API path at the concrete tennis
oracles — the resolved sport `"Tennis"` is in the controlled vocabulary. -/
theorem C8_sport_vocabulary_witness : sportOk "Tennis" :=
  C8_sport_vocabulary.2.2.2 c6SearchOracle c6GetEntTennis c6Labels "anyone"
    ⟨"Tennis", none, "Test Person"⟩ (by decide)

/-- C9.  Sport extraction reads only the first `P641` claim: the result does
not depend on the later sport claims, and when the first claim does not
resolve — its id missing or falsy, or its label lookup failing or returning a
falsy label (`resolveClaimId labels c0 = none`) — it falls through to the
occupation scan.  Country extraction likewise reads only the first `P27`
claim and yields absent when that claim does not resolve, ignoring later
country claims. -/
theorem C9_first_claim_only (labels : String → Option String)
    (c0 : Option String) (rest rest' : List (Option String))
    (p641 p106 p27 : Option (List (Option String))) :
    (extractSport labels ⟨some (c0 :: rest), p106, p27⟩ =
      extractSport labels ⟨some (c0 :: rest'), p106, p27⟩) ∧
    (resolveClaimId labels c0 = none →
      extractSport labels ⟨some (c0 :: rest), p106, p27⟩ =
        occupationScan labels ⟨some (c0 :: rest), p106, p27⟩) ∧
    (extractCountry labels ⟨p641, p106, some (c0 :: rest)⟩ =
      extractCountry labels ⟨p641, p106, some (c0 :: rest')⟩) ∧
    (resolveClaimId labels c0 = none →
      extractCountry labels ⟨p641, p106, some (c0 :: rest)⟩ = none) := by
  refine ⟨rfl, ?_, rfl, ?_⟩
  · intro hb
    have hvs : viaSportClaim labels ⟨some (c0 :: rest), p106, p27⟩ = none := by
      simp only [viaSportClaim, hb]
    unfold extractSport
    rw [hvs]
  · intro hb
    simp only [extractCountry, hb]

/-- C9 witness: with a label oracle that resolves every id to the falsy empty
label and a first sport claim `"Q77"`, the first claim does not resolve, so
the extraction ignores a second claim `"Q88"` (equal results for both tails)
and falls through to the occupation scan; country extraction at the same
shape yields absent. -/
theorem C9_first_claim_only_witness :
    (extractSport emptyLabels ⟨some [some "Q77", some "Q88"], none, none⟩ =
      extractSport emptyLabels ⟨some [some "Q77"], none, none⟩) ∧
    (extractSport emptyLabels ⟨some [some "Q77", some "Q88"], none, none⟩ =
      occupationScan emptyLabels ⟨some [some "Q77", some "Q88"], none, none⟩) ∧
    (extractCountry emptyLabels ⟨none, none, some [some "Q77", some "Q88"]⟩ =
      extractCountry emptyLabels ⟨none, none, some [some "Q77"]⟩) ∧
    (extractCountry emptyLabels ⟨none, none, some [some "Q77", some "Q88"]⟩ =
      none) := by
  obtain ⟨h1, h2, h3, h4⟩ := C9_first_claim_only emptyLabels (some "Q77")
    [some "Q88"] [] none none none
  exact ⟨h1, h2 (by decide), h3, h4 (by decide)⟩

/-- C2 (counterexample).  Input `"nadal"`: single token, not found by the
exact local matcher, and both strategies of the chosen order (external
resolver, then suffix match) yield absent — yet `lookup_athlete` returns a
result, produced by the step-0 famous-athletes shortcut (exact match on the
substituted full name `"Rafael Nadal"`).  This contradicts the claim's
"returns absent exactly when both strategies of the chosen order yield
absent". -/
theorem C2_counterexample :
    cexExact (pyStrip "nadal") = none ∧
    (pyStrip "nadal").data.contains ' ' = false ∧
    cexNone (pyStrip "nadal") = none ∧
    lookupAthlete cexExact cexNone cexNone "nadal" = some nadalEntity ∧
    lookupAthlete cexExact cexNone cexNone "nadal" ≠ none := by
  refine ⟨by decide, by decide, by decide, by decide, by decide⟩

/-- C2 (amended).  For every input on which the famous-athletes shortcut
yields nothing and the exact local matcher yields nothing: a single-token
(stripped) input tries the external resolver first and falls back to the
suffix matcher exactly when the resolver yields absent; a multi-token input
tries the suffix matcher first and falls back to the external resolver
exactly when the suffix matcher yields absent; the call returns absent
exactly when both strategies yield absent. -/
theorem C2_orchestrator (exact suffixM api : String → Option ResolvedEntity)
    (athlete_name : String)
    (hfam : famousShortcut exact api (strLower (pyStrip athlete_name)) = none)
    (hex : exact (pyStrip athlete_name) = none) :
    ((pyStrip athlete_name).data.contains ' ' = false →
      (∀ r, api (pyStrip athlete_name) = some r →
        lookupAthlete exact suffixM api athlete_name = some r) ∧
      (api (pyStrip athlete_name) = none →
        lookupAthlete exact suffixM api athlete_name =
          suffixM (pyStrip athlete_name))) ∧
    ((pyStrip athlete_name).data.contains ' ' = true →
      (∀ r, suffixM (pyStrip athlete_name) = some r →
        lookupAthlete exact suffixM api athlete_name = some r) ∧
      (suffixM (pyStrip athlete_name) = none →
        lookupAthlete exact suffixM api athlete_name =
          api (pyStrip athlete_name))) ∧
    (lookupAthlete exact suffixM api athlete_name = none ↔
      api (pyStrip athlete_name) = none ∧
        suffixM (pyStrip athlete_name) = none) := by
  have hmain : lookupAthlete exact suffixM api athlete_name =
      (if (pyStrip athlete_name).data.contains ' ' = false then
        match api (pyStrip athlete_name) with
        | some r => some r
        | none => suffixM (pyStrip athlete_name)
      else
        match suffixM (pyStrip athlete_name) with
        | some r => some r
        | none => api (pyStrip athlete_name)) := by
    simp only [lookupAthlete, hfam, hex]
    cases hsw : (pyStrip athlete_name).data.contains ' ' <;> simp [hsw]
  refine ⟨?_, ?_, ?_⟩
  · intro hsw
    rw [hmain, if_pos hsw]
    constructor
    · intro r hr
      rw [hr]
    · intro hr
      rw [hr]
  · intro hsw
    rw [hmain, if_neg (by rw [hsw]; decide)]
    constructor
    · intro r hr
      rw [hr]
    · intro hr
      rw [hr]
  · rw [hmain]
    by_cases hsw : (pyStrip athlete_name).data.contains ' ' = false
    · rw [if_pos hsw]
      cases hapi : api (pyStrip athlete_name) with
      | some r => simp
      | none =>
        cases hsuf : suffixM (pyStrip athlete_name) with
        | some r => simp
        | none => simp
    · rw [if_neg hsw]
      cases hsuf : suffixM (pyStrip athlete_name) with
      | some r => simp
      | none =>
        cases hapi : api (pyStrip athlete_name) with
        | some r => simp
        | none => simp

/-- C2 witness: the amended theorem applied at two concrete instances.
Multi-token `"Jane Smith"` (not aliased, not matched exactly) resolves via
the suffix matcher without consulting the external resolver; and on the
all-absent oracles the lookup returns absent. -/
theorem C2_orchestrator_witness :
    lookupAthlete cexNone janeSuffix cexNone "Jane Smith" = some janeEntity ∧
    lookupAthlete cexNone cexNone cexNone "Jane Smith" = none := by
  constructor
  · exact (((C2_orchestrator cexNone janeSuffix cexNone "Jane Smith"
      (by decide) (by decide)).2.1 (by decide)).1 janeEntity (by decide))
  · exact (C2_orchestrator cexNone cexNone cexNone "Jane Smith"
      (by decide) (by decide)).2.2.mpr ⟨rfl, rfl⟩

/-- Any `_get_label` call preserves every existing cache entry (the cache is
append-only: a call either hits the cache, caches nothing, or adds a binding
for its own id, which — the entry being present — cannot shadow an existing
one). -/
theorem getLabel_preserves (fetch cache : String → Option String)
    (id0 id1 l : String) (h : cache id0 = some l) :
    ((getLabel fetch cache id1).2.1) id0 = some l := by
  unfold getLabel
  cases hc : cache id1 with
  | some l1 => simpa using h
  | none =>
    cases hf : fetch id1 with
    | none => simpa using h
    | some lf =>
      by_cases hlf : lf = ""
      · simpa [hlf] using h
      · simp only [if_neg hlf]
        by_cases hx : id0 = id1
        · subst hx
          rw [hc] at h
          cases h
        · simpa [hx] using h

/-- Cache entries survive any sequence of further `_get_label` calls. -/
theorem runLabelCalls_preserves (fetch cache : String → Option String)
    (ids : List String) (id0 l : String) (h : cache id0 = some l) :
    runLabelCalls fetch cache ids id0 = some l := by
  induction ids generalizing cache with
  | nil => simpa [runLabelCalls] using h
  | cons hd tl ih =>
    have hstep := getLabel_preserves fetch cache id0 hd l h
    simpa [runLabelCalls, List.foldl] using ih _ hstep

/-- C10.  The process-wide label cache stores only successful non-empty label
lookups: a cached id is answered from the cache, unchanged, without a network
request — including after any sequence of intervening calls; a successful
non-empty fetch is stored (and only the fetched id's binding changes); a
failed fetch and an empty-label fetch cache nothing, so the next call for
that id retries. -/
theorem C10_label_cache (fetch cache : String → Option String)
    (entity_id : String) :
    (∀ l, cache entity_id = some l →
      getLabel fetch cache entity_id = (some l, cache, false)) ∧
    (cache entity_id = none → fetch entity_id = none →
      getLabel fetch cache entity_id = (none, cache, true)) ∧
    (∀ l, cache entity_id = none → fetch entity_id = some l → l ≠ "" →
      (getLabel fetch cache entity_id).1 = some l ∧
      (getLabel fetch cache entity_id).2.2 = true ∧
      ((getLabel fetch cache entity_id).2.1) entity_id = some l ∧
      (∀ x, x ≠ entity_id → ((getLabel fetch cache entity_id).2.1) x = cache x)) ∧
    (cache entity_id = none → fetch entity_id = some "" →
      getLabel fetch cache entity_id = (some "", cache, true)) ∧
    (∀ l ids fetch2, cache entity_id = some l →
      getLabel fetch2 (runLabelCalls fetch cache ids) entity_id =
        (some l, runLabelCalls fetch cache ids, false)) := by
  refine ⟨?_, ?_, ?_, ?_, ?_⟩
  · intro l h
    simp [getLabel, h]
  · intro hc hf
    simp [getLabel, hc, hf]
  · intro l hc hf hl
    simp only [getLabel, hc, hf, if_neg hl]
    refine ⟨by simp, by simp, by simp, ?_⟩
    intro x hx
    simp [hx]
  · intro hc hf
    simp [getLabel, hc, hf]
  · intro l ids fetch2 h
    have := runLabelCalls_preserves fetch cache ids entity_id l h
    simp [getLabel, this]

/-- C10 witness: the theorem applied at concrete caches and fetchers — a
successful fetch of `"Q1"` is stored and flagged as a network call; the
pre-cached `"Q9"` entry survives two intervening calls and is then answered
from the cache without a network request. -/
theorem C10_label_cache_witness :
    (getLabel fetch0 cache0 "Q1").1 = some "Label1" ∧
    ((getLabel fetch0 cache0 "Q1").2.1) "Q1" = some "Label1" ∧
    getLabel fetch0 (runLabelCalls fetch0 cache9 ["Q1", "Q2"]) "Q9" =
      (some "L9", runLabelCalls fetch0 cache9 ["Q1", "Q2"], false) := by
  obtain ⟨-, -, h3, -, h5⟩ := C10_label_cache fetch0 cache0 "Q1"
  obtain ⟨hr1, _, hr3, _⟩ := h3 "Label1" rfl (by decide) (by decide)
  obtain ⟨-, -, -, -, h5'⟩ := C10_label_cache fetch0 cache9 "Q9"
  exact ⟨hr1, hr3, h5' "L9" ["Q1", "Q2"] fetch0 (by decide)⟩
